import Mathlib

/-!
Verification of the Mycelium UNS subject codec (`src/lib.rs`).

Rust `String` / `&str` values are modelled as their character sequences
(`List Char`), so that Rust's `s.split('.')` becomes `List.splitOn '.'`
and Rust's `format!`‑style concatenation becomes list append.  Error
values in the source are `&'static str` messages; they are modelled as
the exact Lean string literals.  A Rust function that can panic (slice
indexing) is modelled with an outer `Option`: `none` models a panic,
`some r` a normal return of `r`.

The external ISO‑3166‑2 subdivision table (`rust_iso3166`) is not part
of the repository; every definition that consults it is parameterised
by a validator `V : RStr → Bool` (the spec's Geo Validator contract
`is_valid_region_code`).
-/

namespace Mycelium

/-- Rust strings, modelled as their character sequences. -/
abbrev RStr := List Char

/-- Decidable equality for Rust `Result` values (`Except`). -/
def exceptDecEq {ε α : Type} [DecidableEq ε] [DecidableEq α] :
    (a b : Except ε α) → Decidable (a = b)
  | .ok a, .ok b =>
    if h : a = b then .isTrue (by rw [h]) else .isFalse (by simp [h])
  | .ok _, .error _ => .isFalse (by simp)
  | .error _, .ok _ => .isFalse (by simp)
  | .error e, .error f =>
    if h : e = f then .isTrue (by rw [h]) else .isFalse (by simp [h])

instance {ε α : Type} [DecidableEq ε] [DecidableEq α] : DecidableEq (Except ε α) :=
  exceptDecEq

/-- A geo validator: the spec's `is_valid_region_code(code) -> bool`. -/
abbrev Validator := RStr → Bool

/-- Rust `s.split('.').collect::<Vec<_>>()`. -/
def splitDot (s : RStr) : List RStr := s.splitOn '.'

/-- Joining tokens with the `.` separator (what `Display` emits between fields). -/
def joinDot (l : List RStr) : RStr := List.intercalate ['.'] l

/-- Rust `parts[i]` where `parts : Vec<&str>`: `none` models the
out-of-bounds panic. -/
def tok : List RStr → Nat → Option RStr
  | [], _ => none
  | t :: _, 0 => some t
  | _ :: ts, n + 1 => tok ts n

/-- The `Environment` enum (`src/lib.rs` lines 6-11). -/
inductive Environment
  | Production
  | Staging
  | Dev
deriving DecidableEq

/-- `impl Display for Environment` (lines 13-21). -/
def Environment.toStr : Environment → RStr
  | .Production => ("prod").data
  | .Staging => ("staging").data
  | .Dev => ("dev").data

/-- `impl FromStr for Environment` (lines 23-33). -/
def Environment.fromStr (s : RStr) : Except String Environment :=
  if s = ("prod").data then .ok .Production
  else if s = ("staging").data then .ok .Staging
  else if s = ("dev").data then .ok .Dev
  else .error "Invalid Environment string"

/-- The `OwnershipGroup` struct (lines 35-39). -/
structure OwnershipGroup where
  enterprise : RStr
  op_group : RStr
deriving DecidableEq

/-- `impl Display for OwnershipGroup` (lines 41-45). -/
def OwnershipGroup.toStr (o : OwnershipGroup) : RStr :=
  o.enterprise ++ ('.' :: o.op_group)

/-- `impl FromStr for OwnershipGroup` (lines 47-60): split on `.`, require
exactly two pieces. -/
def OwnershipGroup.fromStr (s : RStr) : Except String OwnershipGroup :=
  match splitDot s with
  | [a, b] => .ok ⟨a, b⟩
  | _ => .error "Invalid OwnershipGroup string format. Expected: enterprise.op_group"

/-- The `Locator` struct (lines 62-67). -/
structure Locator where
  iso_3166_2 : RStr
  op_region : RStr
  op_identifier : RStr
deriving DecidableEq

/-- `impl Display for Locator` (lines 69-77). -/
def Locator.toStr (l : Locator) : RStr :=
  l.iso_3166_2 ++ ('.' :: l.op_region) ++ ('.' :: l.op_identifier)

/-- `impl FromStr for Locator` (lines 79-98): split on `.`, require exactly
three pieces and an ISO-3166-2 code the validator recognizes. -/
def Locator.fromStr (V : Validator) (s : RStr) : Except String Locator :=
  match splitDot s with
  | [c, r, i] =>
    if V c then .ok ⟨c, r, i⟩ else .error "Invalid ISO 3166-2 code"
  | _ => .error "Invalid GlobalLocator string format. Expected: iso.region.id"

/-- The `GeoLocator` enum (lines 100-105). -/
inductive GeoLocator
  | Local
  | Global
  | Locator (l : Mycelium.Locator)
deriving DecidableEq

/-- `impl Display for GeoLocator` (lines 107-115). -/
def GeoLocator.toStr : GeoLocator → RStr
  | .Local => ("local").data
  | .Global => ("global").data
  | .Locator g => g.toStr

/-- `impl FromStr for GeoLocator` (lines 117-129): one piece yields `Local`
unconditionally, otherwise the input is parsed as an explicit `Locator`. -/
def GeoLocator.fromStr (V : Validator) (s : RStr) : Except String GeoLocator :=
  if (splitDot s).length = 1 then .ok .Local
  else
    match Locator.fromStr V s with
    | .ok g => .ok (.Locator g)
    | .error _ => .error "Invalid GlobalLocator string format."

/-- The `ServiceIdentifier` struct (lines 131-135). -/
structure ServiceIdentifier where
  service_name : RStr
  instance_id : RStr
deriving DecidableEq

/-- `impl Display for ServiceIdentifier` (lines 137-141). -/
def ServiceIdentifier.toStr (s : ServiceIdentifier) : RStr :=
  s.service_name ++ ('.' :: s.instance_id)

/-- `impl FromStr for ServiceIdentifier` (lines 143-156). -/
def ServiceIdentifier.fromStr (s : RStr) : Except String ServiceIdentifier :=
  match splitDot s with
  | [a, b] => .ok ⟨a, b⟩
  | _ => .error "Invalid ServiceIdentifier string format. Expected: name.id"

/-- The `PayloadType` enum (lines 158-166). -/
inductive PayloadType
  | Heartbeat
  | Data
  | Diagnostics
  | Command
  | Event
  | Custom
deriving DecidableEq

/-- `impl Display for PayloadType` (lines 168-179). -/
def PayloadType.toStr : PayloadType → RStr
  | .Heartbeat => ("heartbeat").data
  | .Data => ("data").data
  | .Diagnostics => ("diagnostics").data
  | .Command => ("command").data
  | .Event => ("event").data
  | .Custom => ("custom").data

/-- `impl FromStr for PayloadType` (lines 181-194). -/
def PayloadType.fromStr (s : RStr) : Except String PayloadType :=
  if s = ("heartbeat").data then .ok .Heartbeat
  else if s = ("data").data then .ok .Data
  else if s = ("diagnostics").data then .ok .Diagnostics
  else if s = ("command").data then .ok .Command
  else if s = ("event").data then .ok .Event
  else if s = ("custom").data then .ok .Custom
  else .error "Invalid PayloadType string"

/-- The `MyceliumSubject` struct (lines 196-204). -/
structure MyceliumSubject where
  environment : Environment
  ownership_group : OwnershipGroup
  geo_locator : GeoLocator
  service_identifier : ServiceIdentifier
  payload_type : PayloadType
  payload_identifier : List RStr
deriving DecidableEq

/-- `impl Display for MyceliumSubject` (lines 206-223): the five fixed fields
joined by `.`, then `.part` appended for each payload-identifier part. -/
def MyceliumSubject.toStr (m : MyceliumSubject) : RStr :=
  m.payload_identifier.foldl (fun acc part => acc ++ ('.' :: part))
    (m.environment.toStr ++ ('.' :: m.ownership_group.toStr)
      ++ ('.' :: m.geo_locator.toStr)
      ++ ('.' :: m.service_identifier.toStr)
      ++ ('.' :: m.payload_type.toStr))

/-- Shared tail of `MyceliumSubject::from_str` (lines 249-269): parse
`ServiceIdentifier` from `parts[4+off]` and `parts[5+off]`, `PayloadType`
from `parts[6+off]`, and take the slice `parts[(7+off)..]` as the payload
identifier.  `off` is the source's `global_offset`.  In Rust the slice
panics when `7+off` exceeds the length, hence the guard. -/
def MyceliumSubject.finishParse (parts : List RStr) (off : Nat)
    (environment : Environment) (ownership_group : OwnershipGroup)
    (geo_locator : GeoLocator) : Option (Except String MyceliumSubject) :=
  match tok parts (4 + off), tok parts (5 + off) with
  | some q4, some q5 =>
    (match ServiceIdentifier.fromStr (q4 ++ ('.' :: q5)) with
     | .error e => some (.error e)
     | .ok service_identifier =>
       match tok parts (6 + off) with
       | none => none
       | some q6 =>
         match PayloadType.fromStr q6 with
         | .error e => some (.error e)
         | .ok payload_type =>
           if 7 + off ≤ parts.length then
             some (.ok ⟨environment, ownership_group, geo_locator,
               service_identifier, payload_type, parts.drop (7 + off)⟩)
           else none)
  | _, _ => none

/-- `impl FromStr for MyceliumSubject` (lines 225-271), after the initial
split into `parts`.  Mirrors the source: length guard, `Environment` from
`parts[0]`, `OwnershipGroup` from `"{parts[1]}.{parts[2]}"`, the geo-locator
branch on `parts[3]` (`global_offset` 0 for the sentinels, 2 for the
explicit three-token `Locator`), then the shared tail. -/
def MyceliumSubject.fromParts (V : Validator) (parts : List RStr) :
    Option (Except String MyceliumSubject) :=
  if parts.length < 7 then
    some (.error "String too short to represent a local or global MyceliumSubject")
  else
    match tok parts 0 with
    | none => none
    | some p0 =>
      match Environment.fromStr p0 with
      | .error e => some (.error e)
      | .ok environment =>
        match tok parts 1, tok parts 2 with
        | some p1, some p2 =>
          (match OwnershipGroup.fromStr (p1 ++ ('.' :: p2)) with
           | .error e => some (.error e)
           | .ok ownership_group =>
             match tok parts 3 with
             | none => none
             | some p3 =>
               if p3 = ("local").data then
                 finishParse parts 0 environment ownership_group .Local
               else if p3 = ("global").data then
                 finishParse parts 0 environment ownership_group .Global
               else if parts.length < 9 then
                 some (.error "String too short to represent a global MyceliumSubject")
               else
                 match tok parts 4, tok parts 5 with
                 | some p4, some p5 =>
                   (match Locator.fromStr V (p3 ++ ('.' :: p4) ++ ('.' :: p5)) with
                    | .error e => some (.error e)
                    | .ok l =>
                      finishParse parts 2 environment ownership_group (.Locator l))
                 | _, _ => none)
        | _, _ => none

/-- `impl FromStr for MyceliumSubject` (lines 225-271): split the input on
`.` and process the token vector. -/
def MyceliumSubject.fromStr (V : Validator) (s : RStr) :
    Option (Except String MyceliumSubject) :=
  MyceliumSubject.fromParts V (splitDot s)

/-- Modelled from the spec: the external ISO-3166-2 subdivision table
(the crate `rust_iso3166`, the spec's Geo Validator) is not part of the
repository source.  Section 8 of the spec treats "US-CA" as a recognized
subdivision code and assumes "US-AA" is not recognized; this sample
validator realizes exactly those assumptions. -/
def sampleValidator : Validator := fun c => c = ("US-CA").data

/-- A token contains no separator character. -/
def NoDot (t : RStr) : Prop := '.' ∉ t

instance (t : RStr) : Decidable (NoDot t) := by
  unfold NoDot; infer_instance

/-- Facts about the real geo validator that the embedding takes as
hypotheses: every recognized ISO-3166-2 subdivision code (all of the form
`XX-YYY`) contains no `.` and is neither of the reserved sentinel tokens. -/
def GoodValidator (V : Validator) : Prop :=
  ∀ c, V c = true → NoDot c ∧ c ≠ ("local").data ∧ c ≠ ("global").data

/-- Wire tokens of a `GeoLocator` value, as `Display` emits them. -/
def GeoLocator.tokens : GeoLocator → List RStr
  | .Local => [("local").data]
  | .Global => [("global").data]
  | .Locator l => [l.iso_3166_2, l.op_region, l.op_identifier]

/-- Wire tokens of a `MyceliumSubject`, as `Display` emits them. -/
def MyceliumSubject.tokens (m : MyceliumSubject) : List RStr :=
  m.environment.toStr :: m.ownership_group.enterprise :: m.ownership_group.op_group ::
    (m.geo_locator.tokens
      ++ [m.service_identifier.service_name, m.service_identifier.instance_id,
          m.payload_type.toStr]
      ++ m.payload_identifier)

/-- A subject all of whose wire tokens are free of the separator: the
precondition §6 of the spec places on callers. -/
def MyceliumSubject.DotFree (m : MyceliumSubject) : Prop :=
  ∀ t ∈ m.tokens, NoDot t

instance (m : MyceliumSubject) : Decidable m.DotFree := by
  unfold MyceliumSubject.DotFree; infer_instance

/-- Whether the validator accepts the region code of the subject's
geo-locator (vacuously true for the sentinel forms). -/
def MyceliumSubject.GeoOk (V : Validator) (m : MyceliumSubject) : Prop :=
  ∀ l, m.geo_locator = .Locator l → V l.iso_3166_2 = true

/-- Boolean form of `GeoOk`, for decidability. -/
def MyceliumSubject.geoOkB (V : Validator) (m : MyceliumSubject) : Bool :=
  match m.geo_locator with
  | .Locator l => V l.iso_3166_2
  | _ => true

instance (V : Validator) (m : MyceliumSubject) : Decidable (m.GeoOk V) :=
  decidable_of_iff (m.geoOkB V = true) (by
    unfold MyceliumSubject.GeoOk MyceliumSubject.geoOkB
    cases m.geo_locator <;> simp)

/-- Modelled from the spec: the Subject Builder (spec §4.4) does not appear
in the repository source; only this staged accumulator of optional slots is
described there.  One optional slot per field; a `none` slot was never set. -/
structure SubjectBuilder where
  environment : Option Environment := none
  ownership_group : Option OwnershipGroup := none
  geo_locator : Option GeoLocator := none
  service_identifier : Option ServiceIdentifier := none
  payload_type : Option PayloadType := none
  payload_identifier : Option (List RStr) := none
deriving DecidableEq

/-- Modelled from the spec: build-time errors of the Subject Builder
(spec §4.4 and §7): `MissingField` names the unset slot, `InvalidGeoCode`
carries the rejected region code. -/
inductive BuildErr
  | MissingField (field : String)
  | InvalidGeoCode (code : RStr)
deriving DecidableEq

/-- Modelled from the spec: a Subject Builder with no field set. -/
def SubjectBuilder.new : SubjectBuilder := {}

/-- Modelled from the spec: the per-field setter (last write wins). -/
def SubjectBuilder.set_environment (b : SubjectBuilder) (v : Environment) :
    SubjectBuilder := { b with environment := some v }

/-- Modelled from the spec: the per-field setter (last write wins). -/
def SubjectBuilder.set_ownership_group (b : SubjectBuilder) (v : OwnershipGroup) :
    SubjectBuilder := { b with ownership_group := some v }

/-- Modelled from the spec: the per-field setter (last write wins). -/
def SubjectBuilder.set_geo_locator (b : SubjectBuilder) (v : GeoLocator) :
    SubjectBuilder := { b with geo_locator := some v }

/-- Modelled from the spec: the per-field setter (last write wins). -/
def SubjectBuilder.set_service_identifier (b : SubjectBuilder) (v : ServiceIdentifier) :
    SubjectBuilder := { b with service_identifier := some v }

/-- Modelled from the spec: the per-field setter (last write wins). -/
def SubjectBuilder.set_payload_type (b : SubjectBuilder) (v : PayloadType) :
    SubjectBuilder := { b with payload_type := some v }

/-- Modelled from the spec: the per-field setter (last write wins); setting
an empty payload-identifier sequence counts as setting the field. -/
def SubjectBuilder.set_payload_identifier (b : SubjectBuilder) (v : List RStr) :
    SubjectBuilder := { b with payload_identifier := some v }

/-- Modelled from the spec: `build()` (spec §4.4).  Fails with
`MissingField` on the first slot that was never set; when the staged
geo-locator is the explicit `Locator` variant, additionally consults the
Geo Validator and fails with `InvalidGeoCode` on rejection; otherwise
assembles the immutable Subject from the staged values. -/
def SubjectBuilder.build (V : Validator) (b : SubjectBuilder) :
    Except BuildErr MyceliumSubject :=
  match b.environment with
  | none => .error (.MissingField "environment")
  | some environment =>
    match b.ownership_group with
    | none => .error (.MissingField "ownership_group")
    | some ownership_group =>
      match b.geo_locator with
      | none => .error (.MissingField "geo_locator")
      | some geo_locator =>
        match b.service_identifier with
        | none => .error (.MissingField "service_identifier")
        | some service_identifier =>
          match b.payload_type with
          | none => .error (.MissingField "payload_type")
          | some payload_type =>
            match b.payload_identifier with
            | none => .error (.MissingField "payload_identifier")
            | some payload_identifier =>
              match geo_locator with
              | .Locator l =>
                if V l.iso_3166_2 then
                  .ok ⟨environment, ownership_group, .Locator l,
                    service_identifier, payload_type, payload_identifier⟩
                else .error (.InvalidGeoCode l.iso_3166_2)
              | g =>
                .ok ⟨environment, ownership_group, g,
                  service_identifier, payload_type, payload_identifier⟩

/-! ### Properties of the separator split and join -/

/-- No piece produced by splitting on `.` contains a `.`. -/
theorem noDot_splitDot (s : RStr) : ∀ t ∈ splitDot s, NoDot t := by
  induction s with
  | nil =>
    intro t ht
    simp only [splitDot, List.splitOn, List.splitOnP_nil, List.mem_singleton] at ht
    subst ht
    intro h
    simp at h
  | cons c cs ih =>
    intro t ht
    simp only [splitDot, List.splitOn] at ht ih
    rw [List.splitOnP_cons] at ht
    by_cases hc : c = '.'
    · rw [if_pos (by simpa using hc)] at ht
      rcases List.mem_cons.mp ht with h | h
      · subst h
        intro h
        simp at h
      · exact ih t h
    · rw [if_neg (by simpa using hc)] at ht
      rcases hsp : List.splitOnP (fun x => x == '.') cs with _ | ⟨hd, tl⟩
      · exact absurd hsp (List.splitOnP_ne_nil _ _)
      · rw [hsp, List.modifyHead_cons] at ht
        rcases List.mem_cons.mp ht with h | h
        · subst h
          intro hmem
          rcases List.mem_cons.mp hmem with h | h
          · exact hc h.symm
          · exact ih hd (by rw [hsp]; exact List.mem_cons_self _ _) h
        · exact ih t (by rw [hsp]; exact List.mem_cons_of_mem _ h)

/-- Joining the split pieces with `.` recovers the original string. -/
theorem joinDot_splitDot (s : RStr) : joinDot (splitDot s) = s := by
  unfold joinDot splitDot
  exact List.intercalate_splitOn s '.'

/-- Splitting on `.` after joining separator-free tokens recovers the tokens. -/
theorem splitDot_joinDot (l : List RStr) (h : ∀ t ∈ l, NoDot t) (hne : l ≠ []) :
    splitDot (joinDot l) = l := by
  unfold joinDot splitDot
  exact List.splitOn_intercalate l '.' h hne

/-- Unfolding of `joinDot` on a nonempty token list. -/
theorem joinDot_cons (x : RStr) (l : List RStr) :
    joinDot (x :: l) = x ++ (l.map (fun p => '.' :: p)).flatten := by
  induction l generalizing x with
  | nil => simp [joinDot, List.intercalate]
  | cons y l ih =>
    simp only [joinDot, List.intercalate] at ih ⊢
    rw [List.intersperse_cons_cons, List.flatten_cons, List.flatten_cons, ih y]
    simp [List.append_assoc]

/-- Splitting `a.b` for separator-free `a`, `b`. -/
theorem splitDot_pair (a b : RStr) (ha : NoDot a) (hb : NoDot b) :
    splitDot (a ++ ('.' :: b)) = [a, b] := by
  have h := splitDot_joinDot [a, b]
    (by intro t ht
        rcases List.mem_cons.mp ht with h | h
        · subst h; exact ha
        · simp only [List.mem_singleton] at h; subst h; exact hb)
    (by simp)
  simpa [joinDot_cons] using h

/-- Splitting `a.b.c` for separator-free `a`, `b`, `c`. -/
theorem splitDot_triple (a b c : RStr) (ha : NoDot a) (hb : NoDot b) (hc : NoDot c) :
    splitDot (a ++ ('.' :: b) ++ ('.' :: c)) = [a, b, c] := by
  have h := splitDot_joinDot [a, b, c]
    (by intro t ht
        rcases List.mem_cons.mp ht with h | h
        · subst h; exact ha
        · rcases List.mem_cons.mp h with h | h
          · subst h; exact hb
          · simp only [List.mem_singleton] at h; subst h; exact hc)
    (by simp)
  simpa [joinDot_cons, List.append_assoc] using h

/-- The payload loop in `Display for MyceliumSubject`, in closed form. -/
theorem foldl_dotAppend (l : List RStr) (a : RStr) :
    l.foldl (fun acc part => acc ++ ('.' :: part)) a
      = a ++ (l.map (fun p => '.' :: p)).flatten := by
  induction l generalizing a with
  | nil => simp
  | cons x l ih => simp [ih, List.append_assoc]

/-- The formatted subject is its token list joined with `.`. -/
theorem MyceliumSubject.toStr_eq_joinDot (m : MyceliumSubject) :
    m.toStr = joinDot m.tokens := by
  rcases m with ⟨env, ⟨e, o⟩, geo, ⟨n, i⟩, pt, payload⟩
  cases geo <;>
    simp [MyceliumSubject.toStr, MyceliumSubject.tokens, GeoLocator.tokens,
      OwnershipGroup.toStr, ServiceIdentifier.toStr, GeoLocator.toStr, Locator.toStr,
      foldl_dotAppend, joinDot_cons, List.append_assoc]

/-! ### Inversion lemmas for the enum codecs -/

/-- Parsing the formatted `Environment` token recovers the variant. -/
theorem env_fromStr_toStr (e : Environment) :
    Environment.fromStr e.toStr = .ok e := by
  cases e <;> decide

/-- A successful `Environment` parse pins the input to the variant's token. -/
theorem env_toStr_of_fromStr {s : RStr} {e : Environment}
    (h : Environment.fromStr s = .ok e) : e.toStr = s := by
  cases e <;> unfold Environment.fromStr at h <;> split_ifs at h <;>
    simp_all [Environment.toStr]

/-- Parsing the formatted `PayloadType` token recovers the variant. -/
theorem pt_fromStr_toStr (p : PayloadType) :
    PayloadType.fromStr p.toStr = .ok p := by
  cases p <;> decide

/-- A successful `PayloadType` parse pins the input to the variant's token. -/
theorem pt_toStr_of_fromStr {s : RStr} {p : PayloadType}
    (h : PayloadType.fromStr s = .ok p) : p.toStr = s := by
  cases p <;> unfold PayloadType.fromStr at h <;> split_ifs at h <;>
    simp_all [PayloadType.toStr]

/-- A successful `OwnershipGroup` parse of `a.b` with separator-free pieces. -/
theorem own_fromStr_pair (a b : RStr) (ha : NoDot a) (hb : NoDot b) :
    OwnershipGroup.fromStr (a ++ ('.' :: b)) = .ok ⟨a, b⟩ := by
  unfold OwnershipGroup.fromStr
  rw [splitDot_pair a b ha hb]

/-- A successful `ServiceIdentifier` parse of `a.b` with separator-free pieces. -/
theorem svc_fromStr_pair (a b : RStr) (ha : NoDot a) (hb : NoDot b) :
    ServiceIdentifier.fromStr (a ++ ('.' :: b)) = .ok ⟨a, b⟩ := by
  unfold ServiceIdentifier.fromStr
  rw [splitDot_pair a b ha hb]

/-- Evaluating `Locator::from_str` on `a.b.c` with separator-free pieces. -/
theorem Locator.fromStr_triple (V : Validator) (a b c : RStr)
    (ha : NoDot a) (hb : NoDot b) (hc : NoDot c) :
    Locator.fromStr V (a ++ ('.' :: b) ++ ('.' :: c))
      = if V a then .ok ⟨a, b, c⟩ else .error "Invalid ISO 3166-2 code" := by
  unfold Locator.fromStr
  rw [splitDot_triple a b c ha hb hc]

/-! ### Branch evaluation of the subject parser -/

/-- Fewer than seven tokens: the first length guard fires. -/
theorem MyceliumSubject.fromParts_short (V : Validator) (parts : List RStr)
    (h : parts.length < 7) :
    MyceliumSubject.fromParts V parts
      = some (.error "String too short to represent a local or global MyceliumSubject") := by
  unfold MyceliumSubject.fromParts
  rw [if_pos h]

/-- A list of length at least seven splits into seven heads and a tail. -/
theorem destruct7 (l : List RStr) (h : 7 ≤ l.length) :
    ∃ t0 t1 t2 t3 t4 t5 t6 rest,
      l = t0 :: t1 :: t2 :: t3 :: t4 :: t5 :: t6 :: rest := by
  rcases l with _ | ⟨t0, l⟩; · simp at h
  rcases l with _ | ⟨t1, l⟩; · simp at h
  rcases l with _ | ⟨t2, l⟩; · simp at h
  rcases l with _ | ⟨t3, l⟩; · simp at h
  rcases l with _ | ⟨t4, l⟩; · simp at h
  rcases l with _ | ⟨t5, l⟩; · simp at h
  rcases l with _ | ⟨t6, l⟩; · simp at h
  exact ⟨t0, t1, t2, t3, t4, t5, t6, l, rfl⟩

/-- A list of length at least two splits into two heads and a tail. -/
theorem destruct2 (l : List RStr) (h : 2 ≤ l.length) :
    ∃ a b rest, l = a :: b :: rest := by
  rcases l with _ | ⟨a, l⟩; · simp at h
  rcases l with _ | ⟨b, l⟩; · simp at h
  exact ⟨a, b, l, rfl⟩

/-- Sentinel branch, token 3 `local`: the validator is never consulted, the
geo-locator consumes one token, service and payload type come from tokens
4-6, the payload identifier is the tail. -/
theorem MyceliumSubject.fromParts_local (V : Validator)
    (t0 t1 t2 t4 t5 t6 : RStr) (rest : List RStr)
    (h1 : NoDot t1) (h2 : NoDot t2) (h4 : NoDot t4) (h5 : NoDot t5) :
    MyceliumSubject.fromParts V
        (t0 :: t1 :: t2 :: ("local").data :: t4 :: t5 :: t6 :: rest)
      = match Environment.fromStr t0 with
        | .error e => some (.error e)
        | .ok env =>
          match PayloadType.fromStr t6 with
          | .error e => some (.error e)
          | .ok pt => some (.ok ⟨env, ⟨t1, t2⟩, .Local, ⟨t4, t5⟩, pt, rest⟩) := by
  have hA : ¬ ((t0 :: t1 :: t2 :: ("local").data :: t4 :: t5 :: t6 :: rest).length < 7) := by
    simp only [List.length_cons]; omega
  have hB : 7 + 0 ≤ (t0 :: t1 :: t2 :: ("local").data :: t4 :: t5 :: t6 :: rest).length := by
    simp only [List.length_cons]; omega
  cases henv : Environment.fromStr t0 with
  | error e => simp [MyceliumSubject.fromParts, tok, hA, henv]
  | ok env =>
    cases hpt : PayloadType.fromStr t6 with
    | error e =>
      simp [MyceliumSubject.fromParts, MyceliumSubject.finishParse, tok, hA, hB, henv, hpt,
        own_fromStr_pair t1 t2 h1 h2, svc_fromStr_pair t4 t5 h4 h5]
    | ok pt =>
      simp [MyceliumSubject.fromParts, MyceliumSubject.finishParse, tok, hA, hB, henv, hpt,
        own_fromStr_pair t1 t2 h1 h2, svc_fromStr_pair t4 t5 h4 h5]

/-- Sentinel branch, token 3 `global`. -/
theorem MyceliumSubject.fromParts_global (V : Validator)
    (t0 t1 t2 t4 t5 t6 : RStr) (rest : List RStr)
    (h1 : NoDot t1) (h2 : NoDot t2) (h4 : NoDot t4) (h5 : NoDot t5) :
    MyceliumSubject.fromParts V
        (t0 :: t1 :: t2 :: ("global").data :: t4 :: t5 :: t6 :: rest)
      = match Environment.fromStr t0 with
        | .error e => some (.error e)
        | .ok env =>
          match PayloadType.fromStr t6 with
          | .error e => some (.error e)
          | .ok pt => some (.ok ⟨env, ⟨t1, t2⟩, .Global, ⟨t4, t5⟩, pt, rest⟩) := by
  have hA : ¬ ((t0 :: t1 :: t2 :: ("global").data :: t4 :: t5 :: t6 :: rest).length < 7) := by
    simp only [List.length_cons]; omega
  have hB : 7 + 0 ≤ (t0 :: t1 :: t2 :: ("global").data :: t4 :: t5 :: t6 :: rest).length := by
    simp only [List.length_cons]; omega
  cases henv : Environment.fromStr t0 with
  | error e => simp [MyceliumSubject.fromParts, tok, hA, henv]
  | ok env =>
    cases hpt : PayloadType.fromStr t6 with
    | error e =>
      simp [MyceliumSubject.fromParts, MyceliumSubject.finishParse, tok, hA, hB, henv, hpt,
        own_fromStr_pair t1 t2 h1 h2, svc_fromStr_pair t4 t5 h4 h5]
    | ok pt =>
      simp [MyceliumSubject.fromParts, MyceliumSubject.finishParse, tok, hA, hB, henv, hpt,
        own_fromStr_pair t1 t2 h1 h2, svc_fromStr_pair t4 t5 h4 h5]

/-- Explicit-locator branch with at least nine tokens: the geo-locator
consumes tokens 3-5 after the validator accepts token 3, service and payload
type come from tokens 6-8, the payload identifier is the tail. -/
theorem MyceliumSubject.fromParts_explicit (V : Validator)
    (t0 t1 t2 t3 t4 t5 t6 t7 t8 : RStr) (rest : List RStr)
    (h1 : NoDot t1) (h2 : NoDot t2) (h3 : NoDot t3) (h4 : NoDot t4)
    (h5 : NoDot t5) (h6 : NoDot t6) (h7 : NoDot t7)
    (hl : t3 ≠ ("local").data) (hg : t3 ≠ ("global").data) :
    MyceliumSubject.fromParts V
        (t0 :: t1 :: t2 :: t3 :: t4 :: t5 :: t6 :: t7 :: t8 :: rest)
      = match Environment.fromStr t0 with
        | .error e => some (.error e)
        | .ok env =>
          if V t3 then
            match PayloadType.fromStr t8 with
            | .error e => some (.error e)
            | .ok pt =>
              some (.ok ⟨env, ⟨t1, t2⟩, .Locator ⟨t3, t4, t5⟩, ⟨t6, t7⟩, pt, rest⟩)
          else some (.error "Invalid ISO 3166-2 code") := by
  have hA : ¬ ((t0 :: t1 :: t2 :: t3 :: t4 :: t5 :: t6 :: t7 :: t8 :: rest).length < 7) := by
    simp only [List.length_cons]; omega
  have hC : ¬ ((t0 :: t1 :: t2 :: t3 :: t4 :: t5 :: t6 :: t7 :: t8 :: rest).length < 9) := by
    simp only [List.length_cons]; omega
  have hB : 7 + 2 ≤ (t0 :: t1 :: t2 :: t3 :: t4 :: t5 :: t6 :: t7 :: t8 :: rest).length := by
    simp only [List.length_cons]; omega
  have htrip : Locator.fromStr V (t3 ++ '.' :: (t4 ++ '.' :: t5))
      = if V t3 then .ok ⟨t3, t4, t5⟩ else .error "Invalid ISO 3166-2 code" := by
    have h := Locator.fromStr_triple V t3 t4 t5 h3 h4 h5
    rw [List.append_assoc, List.cons_append] at h
    exact h
  cases henv : Environment.fromStr t0 with
  | error e => simp [MyceliumSubject.fromParts, tok, hA, henv]
  | ok env =>
    cases hv : V t3 with
    | false =>
      simp [MyceliumSubject.fromParts, tok, hA, hC, henv, hl, hg, hv,
        own_fromStr_pair t1 t2 h1 h2]
      rw [if_neg (by omega), if_neg (by omega), htrip]
      simp [hv]
    | true =>
      cases hpt : PayloadType.fromStr t8 with
      | error e =>
        simp [MyceliumSubject.fromParts, MyceliumSubject.finishParse, tok, hA, hB, hC,
          henv, hl, hg, hv, hpt, own_fromStr_pair t1 t2 h1 h2,
          svc_fromStr_pair t6 t7 h6 h7]
        rw [if_neg (by omega), if_neg (by omega), htrip]
        simp [hv]
      | ok pt =>
        simp [MyceliumSubject.fromParts, MyceliumSubject.finishParse, tok, hA, hB, hC,
          henv, hl, hg, hv, hpt, own_fromStr_pair t1 t2 h1 h2,
          svc_fromStr_pair t6 t7 h6 h7]
        rw [if_neg (by omega), if_neg (by omega), htrip]
        simp [hv]

/-- Explicit-locator branch with seven or eight tokens: the second length
guard fires, before any validator lookup. -/
theorem MyceliumSubject.fromParts_explicit_short (V : Validator)
    (t0 t1 t2 t3 t4 t5 t6 : RStr) (rest : List RStr)
    (h1 : NoDot t1) (h2 : NoDot t2)
    (hl : t3 ≠ ("local").data) (hg : t3 ≠ ("global").data)
    (hlen : (t0 :: t1 :: t2 :: t3 :: t4 :: t5 :: t6 :: rest).length < 9) :
    MyceliumSubject.fromParts V
        (t0 :: t1 :: t2 :: t3 :: t4 :: t5 :: t6 :: rest)
      = match Environment.fromStr t0 with
        | .error e => some (.error e)
        | .ok _ =>
          some (.error "String too short to represent a global MyceliumSubject") := by
  have hA : ¬ ((t0 :: t1 :: t2 :: t3 :: t4 :: t5 :: t6 :: rest).length < 7) := by
    simp only [List.length_cons]; omega
  simp only [List.length_cons] at hlen
  cases henv : Environment.fromStr t0 with
  | error e => simp [MyceliumSubject.fromParts, tok, hA, henv]
  | ok env =>
    simp [MyceliumSubject.fromParts, tok, hA, henv, hl, hg,
      own_fromStr_pair t1 t2 h1 h2]
    rw [if_neg (by omega), if_pos (by omega)]

/-- The sample validator satisfies the facts assumed of the real table. -/
theorem sampleValidator_good : GoodValidator sampleValidator := by
  intro c h
  have hc : c = ("US-CA").data := by simpa [sampleValidator] using h
  subst hc
  exact ⟨by decide, by decide, by decide⟩

/-- Master inversion: a successful parse pins the subject's wire tokens to
the split of the input. -/
theorem fromStr_ok_tokens (V : Validator) (s : RStr) (S : MyceliumSubject)
    (h : MyceliumSubject.fromStr V s = some (.ok S)) : S.tokens = splitDot s := by
  have hdf := noDot_splitDot s
  unfold MyceliumSubject.fromStr at h
  by_cases hlen : (splitDot s).length < 7
  · rw [MyceliumSubject.fromParts_short V _ hlen] at h
    exact absurd h (by simp)
  · push_neg at hlen
    obtain ⟨t0, t1, t2, t3, t4, t5, t6, rest, hp⟩ := destruct7 _ hlen
    have ht1 : NoDot t1 := hdf _ (by rw [hp]; simp)
    have ht2 : NoDot t2 := hdf _ (by rw [hp]; simp)
    have ht3 : NoDot t3 := hdf _ (by rw [hp]; simp)
    have ht4 : NoDot t4 := hdf _ (by rw [hp]; simp)
    have ht5 : NoDot t5 := hdf _ (by rw [hp]; simp)
    have ht6 : NoDot t6 := hdf _ (by rw [hp]; simp)
    rw [hp] at h ⊢
    by_cases h3l : t3 = ("local").data
    · subst h3l
      rw [MyceliumSubject.fromParts_local V t0 t1 t2 t4 t5 t6 rest ht1 ht2 ht4 ht5] at h
      cases henv : Environment.fromStr t0 with
      | error e => rw [henv] at h; exact absurd h (by simp)
      | ok env =>
        rw [henv] at h
        cases hpt : PayloadType.fromStr t6 with
        | error e => rw [hpt] at h; exact absurd h (by simp)
        | ok pt =>
          rw [hpt] at h
          simp only [Option.some.injEq, Except.ok.injEq] at h
          subst h
          simp [MyceliumSubject.tokens, GeoLocator.tokens,
            env_toStr_of_fromStr henv, pt_toStr_of_fromStr hpt]
    · by_cases h3g : t3 = ("global").data
      · subst h3g
        rw [MyceliumSubject.fromParts_global V t0 t1 t2 t4 t5 t6 rest ht1 ht2 ht4 ht5] at h
        cases henv : Environment.fromStr t0 with
        | error e => rw [henv] at h; exact absurd h (by simp)
        | ok env =>
          rw [henv] at h
          cases hpt : PayloadType.fromStr t6 with
          | error e => rw [hpt] at h; exact absurd h (by simp)
          | ok pt =>
            rw [hpt] at h
            simp only [Option.some.injEq, Except.ok.injEq] at h
            subst h
            simp [MyceliumSubject.tokens, GeoLocator.tokens,
              env_toStr_of_fromStr henv, pt_toStr_of_fromStr hpt]
      · by_cases hlen9 : (t0 :: t1 :: t2 :: t3 :: t4 :: t5 :: t6 :: rest).length < 9
        · rw [MyceliumSubject.fromParts_explicit_short V t0 t1 t2 t3 t4 t5 t6 rest
            ht1 ht2 h3l h3g hlen9] at h
          cases henv : Environment.fromStr t0 <;> rw [henv] at h <;>
            exact absurd h (by simp)
        · push_neg at hlen9
          have hr2 : 2 ≤ rest.length := by
            simp only [List.length_cons] at hlen9; omega
          obtain ⟨t7, t8, rest2, hr⟩ := destruct2 rest hr2
          subst hr
          have ht7 : NoDot t7 := hdf _ (by rw [hp]; simp)
          rw [MyceliumSubject.fromParts_explicit V t0 t1 t2 t3 t4 t5 t6 t7 t8 rest2
            ht1 ht2 ht3 ht4 ht5 ht6 ht7 h3l h3g] at h
          cases henv : Environment.fromStr t0 with
          | error e => rw [henv] at h; exact absurd h (by simp)
          | ok env =>
            rw [henv] at h
            cases hv : V t3 with
            | false => rw [hv] at h; simp at h
            | true =>
              rw [hv] at h
              simp only [reduceIte] at h
              cases hpt : PayloadType.fromStr t8 with
              | error e => rw [hpt] at h; exact absurd h (by simp)
              | ok pt =>
                rw [hpt] at h
                simp only [Option.some.injEq, Except.ok.injEq] at h
                subst h
                simp [MyceliumSubject.tokens, GeoLocator.tokens,
                  env_toStr_of_fromStr henv, pt_toStr_of_fromStr hpt]

/-! ### Claim theorems -/

/-- C1, counterexample: a subject all of whose wire tokens are free of the
separator, whose explicit locator code "US-AA" the validator rejects, does
not round-trip: parsing its formatted string yields the ISO-code error, not
the subject.  So separator-free tokens alone do not suffice for
`parse(format(S)) == S`. -/
theorem claim1_counterexample :
    (MyceliumSubject.mk .Production ⟨("abc").data, ("xyz").data⟩
        (.Locator ⟨("US-AA").data, ("south").data, ("abc").data⟩)
        ⟨("plc-gateway").data, ("1").data⟩ .Data []).DotFree
    ∧ MyceliumSubject.fromStr sampleValidator
        (MyceliumSubject.mk .Production ⟨("abc").data, ("xyz").data⟩
          (.Locator ⟨("US-AA").data, ("south").data, ("abc").data⟩)
          ⟨("plc-gateway").data, ("1").data⟩ .Data []).toStr
      = some (.error "Invalid ISO 3166-2 code")
    ∧ MyceliumSubject.fromStr sampleValidator
        (MyceliumSubject.mk .Production ⟨("abc").data, ("xyz").data⟩
          (.Locator ⟨("US-AA").data, ("south").data, ("abc").data⟩)
          ⟨("plc-gateway").data, ("1").data⟩ .Data []).toStr
      ≠ some (.ok (MyceliumSubject.mk .Production ⟨("abc").data, ("xyz").data⟩
          (.Locator ⟨("US-AA").data, ("south").data, ("abc").data⟩)
          ⟨("plc-gateway").data, ("1").data⟩ .Data [])) := by
  decide

/-- C1 (amended): for a validator whose accepted codes are separator-free
and not the reserved sentinels, every subject whose wire tokens contain no
separator and whose explicit locator region code (when the geo-locator is
the `Locator` form) is accepted by the validator round-trips:
`parse(format(S)) = Ok(S)`. -/
theorem claim1_roundtrip (V : Validator) (hV : GoodValidator V)
    (S : MyceliumSubject) (hdf : S.DotFree) (hgeo : S.GeoOk V) :
    MyceliumSubject.fromStr V S.toStr = some (.ok S) := by
  unfold MyceliumSubject.DotFree at hdf
  unfold MyceliumSubject.GeoOk at hgeo
  have hne : S.tokens ≠ [] := by simp [MyceliumSubject.tokens]
  have hsplit : splitDot S.toStr = S.tokens := by
    rw [MyceliumSubject.toStr_eq_joinDot]
    exact splitDot_joinDot S.tokens hdf hne
  unfold MyceliumSubject.fromStr
  rw [hsplit]
  rcases S with ⟨env, ⟨e, o⟩, geo, ⟨n, i⟩, pt, payload⟩
  have he : NoDot e := hdf _ (by simp [MyceliumSubject.tokens])
  have ho : NoDot o := hdf _ (by simp [MyceliumSubject.tokens])
  have hn : NoDot n := hdf _ (by simp [MyceliumSubject.tokens])
  have hi : NoDot i := hdf _ (by simp [MyceliumSubject.tokens])
  cases geo with
  | Local =>
    have htoks : MyceliumSubject.tokens ⟨env, ⟨e, o⟩, .Local, ⟨n, i⟩, pt, payload⟩
        = env.toStr :: e :: o :: ("local").data :: n :: i :: pt.toStr :: payload := by
      simp [MyceliumSubject.tokens, GeoLocator.tokens]
    rw [htoks, MyceliumSubject.fromParts_local V _ _ _ _ _ _ _ he ho hn hi]
    simp [env_fromStr_toStr, pt_fromStr_toStr]
  | Global =>
    have htoks : MyceliumSubject.tokens ⟨env, ⟨e, o⟩, .Global, ⟨n, i⟩, pt, payload⟩
        = env.toStr :: e :: o :: ("global").data :: n :: i :: pt.toStr :: payload := by
      simp [MyceliumSubject.tokens, GeoLocator.tokens]
    rw [htoks, MyceliumSubject.fromParts_global V _ _ _ _ _ _ _ he ho hn hi]
    simp [env_fromStr_toStr, pt_fromStr_toStr]
  | Locator l =>
    rcases l with ⟨c, r, j⟩
    have hvc : V c = true := hgeo ⟨c, r, j⟩ rfl
    obtain ⟨hcd, hcl, hcg⟩ := hV c hvc
    have hr : NoDot r := hdf _ (by simp [MyceliumSubject.tokens, GeoLocator.tokens])
    have hj : NoDot j := hdf _ (by simp [MyceliumSubject.tokens, GeoLocator.tokens])
    have htoks : MyceliumSubject.tokens
          ⟨env, ⟨e, o⟩, .Locator ⟨c, r, j⟩, ⟨n, i⟩, pt, payload⟩
        = env.toStr :: e :: o :: c :: r :: j :: n :: i :: pt.toStr :: payload := by
      simp [MyceliumSubject.tokens, GeoLocator.tokens]
    rw [htoks, MyceliumSubject.fromParts_explicit V _ _ _ _ _ _ _ _ _ _
      he ho hcd hr hj hn hi hcl hcg]
    simp [env_fromStr_toStr, pt_fromStr_toStr, hvc]

/-- C1 witness: the amended round-trip at a concrete valid subject. -/
theorem claim1_witness :
    MyceliumSubject.fromStr sampleValidator
      (MyceliumSubject.mk .Production ⟨("abc").data, ("xyz").data⟩
        (.Locator ⟨("US-CA").data, ("south").data, ("abc").data⟩)
        ⟨("plc-gateway").data, ("1").data⟩ .Data [("system").data]).toStr
      = some (.ok (MyceliumSubject.mk .Production ⟨("abc").data, ("xyz").data⟩
        (.Locator ⟨("US-CA").data, ("south").data, ("abc").data⟩)
        ⟨("plc-gateway").data, ("1").data⟩ .Data [("system").data])) :=
  claim1_roundtrip sampleValidator sampleValidator_good _ (by decide) (by decide)

/-- C2: every accepted wire string is reproduced exactly by formatting the
parsed subject: `from_str(s) = Ok(S)` implies `format(S) = s`. -/
theorem claim2_canonical (V : Validator) (s : RStr) (S : MyceliumSubject)
    (h : MyceliumSubject.fromStr V s = some (.ok S)) : S.toStr = s := by
  rw [MyceliumSubject.toStr_eq_joinDot, fromStr_ok_tokens V s S h, joinDot_splitDot]

/-- C2 witness: canonical reformatting at a concrete accepted string. -/
theorem claim2_witness :
    (MyceliumSubject.mk .Production ⟨("abc").data, ("xyz").data⟩ .Local
        ⟨("a").data, ("1").data⟩ .Data []).toStr
      = ("prod.abc.xyz.local.a.1.data").data :=
  claim2_canonical sampleValidator _ _ (by decide)

/-- C5, counterexample: `GeoLocator::from_str` maps the single token
"global" to `Local` (the claim says `Global`), and accepts the unknown
single token "foo" as `Local` (the claim says any other single token
fails). -/
theorem claim5_counterexample :
    GeoLocator.fromStr sampleValidator (("global").data) = .ok .Local
    ∧ GeoLocator.fromStr sampleValidator (("foo").data) = .ok .Local := by
  decide

/-- C5 (amended): `GeoLocator`'s single-token decoding accepts every single
token and always yields `Local` — including the token "global" and
arbitrary unrecognized tokens; no single-token input fails. -/
theorem claim5_single_token (V : Validator) (s : RStr)
    (h : (splitDot s).length = 1) : GeoLocator.fromStr V s = .ok .Local := by
  unfold GeoLocator.fromStr
  rw [if_pos h]

/-- C5 witness: the amended single-token rule at a concrete token. -/
theorem claim5_witness :
    (splitDot (("anything").data)).length = 1
    ∧ GeoLocator.fromStr sampleValidator (("anything").data) = .ok .Local :=
  ⟨by decide, claim5_single_token sampleValidator _ (by decide)⟩

/-- C3: whenever token 3 of the input is exactly "local" or "global" the
parser behaves identically under any two validators (so no Geo Validator
lookup can influence the result), and any successful parse carries the
corresponding sentinel geo-locator — regardless of how many tokens follow. -/
theorem claim3_sentinel_priority (V W : Validator) (s : RStr) :
    (tok (splitDot s) 3 = some (("local").data) →
      MyceliumSubject.fromStr V s = MyceliumSubject.fromStr W s
      ∧ ∀ S, MyceliumSubject.fromStr V s = some (.ok S) →
          S.geo_locator = .Local)
    ∧ (tok (splitDot s) 3 = some (("global").data) →
      MyceliumSubject.fromStr V s = MyceliumSubject.fromStr W s
      ∧ ∀ S, MyceliumSubject.fromStr V s = some (.ok S) →
          S.geo_locator = .Global) := by
  have hdf := noDot_splitDot s
  by_cases hlen : (splitDot s).length < 7
  · have hV := MyceliumSubject.fromParts_short V (splitDot s) hlen
    have hW := MyceliumSubject.fromParts_short W (splitDot s) hlen
    unfold MyceliumSubject.fromStr
    rw [hV, hW]
    exact ⟨fun _ => ⟨rfl, fun S hS => absurd hS (by simp)⟩,
      fun _ => ⟨rfl, fun S hS => absurd hS (by simp)⟩⟩
  · push_neg at hlen
    obtain ⟨t0, t1, t2, t3, t4, t5, t6, rest, hp⟩ := destruct7 _ hlen
    have ht1 : NoDot t1 := hdf _ (by rw [hp]; simp)
    have ht2 : NoDot t2 := hdf _ (by rw [hp]; simp)
    have ht4 : NoDot t4 := hdf _ (by rw [hp]; simp)
    have ht5 : NoDot t5 := hdf _ (by rw [hp]; simp)
    unfold MyceliumSubject.fromStr
    rw [hp]
    constructor
    · intro h3
      have h3' : t3 = ("local").data := by
        simpa [tok] using h3
      subst h3'
      rw [MyceliumSubject.fromParts_local V t0 t1 t2 t4 t5 t6 rest ht1 ht2 ht4 ht5,
        MyceliumSubject.fromParts_local W t0 t1 t2 t4 t5 t6 rest ht1 ht2 ht4 ht5]
      refine ⟨rfl, fun S hS => ?_⟩
      cases henv : Environment.fromStr t0 with
      | error e => rw [henv] at hS; exact absurd hS (by simp)
      | ok env =>
        rw [henv] at hS
        cases hpt : PayloadType.fromStr t6 with
        | error e => rw [hpt] at hS; exact absurd hS (by simp)
        | ok pt =>
          rw [hpt] at hS
          simp only [Option.some.injEq, Except.ok.injEq] at hS
          subst hS
          rfl
    · intro h3
      have h3' : t3 = ("global").data := by
        simpa [tok] using h3
      subst h3'
      rw [MyceliumSubject.fromParts_global V t0 t1 t2 t4 t5 t6 rest ht1 ht2 ht4 ht5,
        MyceliumSubject.fromParts_global W t0 t1 t2 t4 t5 t6 rest ht1 ht2 ht4 ht5]
      refine ⟨rfl, fun S hS => ?_⟩
      cases henv : Environment.fromStr t0 with
      | error e => rw [henv] at hS; exact absurd hS (by simp)
      | ok env =>
        rw [henv] at hS
        cases hpt : PayloadType.fromStr t6 with
        | error e => rw [hpt] at hS; exact absurd hS (by simp)
        | ok pt =>
          rw [hpt] at hS
          simp only [Option.some.injEq, Except.ok.injEq] at hS
          subst hS
          rfl

/-- C3 witness: sentinel priority at a concrete string whose token 3 is
"local" and which has enough tokens for the explicit form. -/
theorem claim3_witness :
    MyceliumSubject.fromStr sampleValidator
        (("prod.abc.xyz.local.a.1.data.x.y").data)
      = MyceliumSubject.fromStr (fun _ => true)
        (("prod.abc.xyz.local.a.1.data.x.y").data)
    ∧ ∀ S, MyceliumSubject.fromStr sampleValidator
        (("prod.abc.xyz.local.a.1.data.x.y").data) = some (.ok S) →
        S.geo_locator = .Local :=
  (claim3_sentinel_priority sampleValidator (fun _ => true)
    (("prod.abc.xyz.local.a.1.data.x.y").data)).1 (by decide)

/-- C4, counterexample: parsing the 8-token string
"prod.abc.xyz.US-AA.south.abc.plc-gateway.1" does not fail with the
ISO-code rejection at all: the explicit-locator branch first requires at
least 9 tokens, so the parse fails with the global-form length error —
whose message, moreover, does not mention the code "US-AA". -/
theorem claim4_counterexample :
    MyceliumSubject.fromStr sampleValidator
        (("prod.abc.xyz.US-AA.south.abc.plc-gateway.1").data)
      ≠ some (.error "Invalid ISO 3166-2 code")
    ∧ ¬ (("US-AA").data
        <:+: ("String too short to represent a global MyceliumSubject").data) := by
  decide

/-- C4 (amended): parsing the 8-token string
"prod.abc.xyz.US-AA.south.abc.plc-gateway.1" fails with the global-form
length error "String too short to represent a global MyceliumSubject"
(the explicit-locator form needs at least 9 tokens and the length check
precedes geo validation), not with the geo-code rejection. -/
theorem claim4_too_short :
    MyceliumSubject.fromStr sampleValidator
        (("prod.abc.xyz.US-AA.south.abc.plc-gateway.1").data)
      = some (.error "String too short to represent a global MyceliumSubject") := by
  decide

/-- C6: for a good validator and an explicit-locator input (token 3 not a
sentinel, at least nine tokens) whose environment token and payload-type
token are valid: if the validator rejects token 3 the parse fails with the
ISO-code rejection error, and the same token sequence with token 3
replaced by an accepted code `c` parses successfully. -/
theorem claim6_geo_gating (V : Validator) (hV : GoodValidator V) (s c : RStr)
    (h9 : 9 ≤ (splitDot s).length)
    (h3l : (splitDot s).getD 3 [] ≠ ("local").data)
    (h3g : (splitDot s).getD 3 [] ≠ ("global").data)
    (henv : ∃ env, Environment.fromStr ((splitDot s).getD 0 []) = .ok env)
    (hpt : ∃ pt, PayloadType.fromStr ((splitDot s).getD 8 []) = .ok pt)
    (hc : V c = true) :
    (V ((splitDot s).getD 3 []) = false →
      MyceliumSubject.fromStr V s = some (.error "Invalid ISO 3166-2 code"))
    ∧ ∃ S, MyceliumSubject.fromStr V (joinDot ((splitDot s).set 3 c))
        = some (.ok S) := by
  have hdf := noDot_splitDot s
  obtain ⟨t0, t1, t2, t3, t4, t5, t6, rest, hp⟩ := destruct7 (splitDot s) (by omega)
  have hr2 : 2 ≤ rest.length := by
    rw [hp] at h9; simp only [List.length_cons] at h9; omega
  obtain ⟨t7, t8, rest2, hr⟩ := destruct2 rest hr2
  subst hr
  have ht1 : NoDot t1 := hdf _ (by rw [hp]; simp)
  have ht2 : NoDot t2 := hdf _ (by rw [hp]; simp)
  have ht3 : NoDot t3 := hdf _ (by rw [hp]; simp)
  have ht4 : NoDot t4 := hdf _ (by rw [hp]; simp)
  have ht5 : NoDot t5 := hdf _ (by rw [hp]; simp)
  have ht6 : NoDot t6 := hdf _ (by rw [hp]; simp)
  have ht7 : NoDot t7 := hdf _ (by rw [hp]; simp)
  obtain ⟨env, henv⟩ := henv
  obtain ⟨pt, hpt⟩ := hpt
  rw [hp] at h3l h3g henv hpt ⊢
  simp only [List.getD, List.get?, Option.getD_some] at h3l h3g henv hpt
  obtain ⟨hcd, hcl, hcg⟩ := hV c hc
  constructor
  · intro hrej
    simp only [List.getD, List.get?, Option.getD_some] at hrej
    unfold MyceliumSubject.fromStr
    rw [hp, MyceliumSubject.fromParts_explicit V t0 t1 t2 t3 t4 t5 t6 t7 t8 rest2
      ht1 ht2 ht3 ht4 ht5 ht6 ht7 h3l h3g, henv, hrej]
    simp
  · have hset : (t0 :: t1 :: t2 :: t3 :: t4 :: t5 :: t6 :: t7 :: t8 :: rest2).set 3 c
        = t0 :: t1 :: t2 :: c :: t4 :: t5 :: t6 :: t7 :: t8 :: rest2 := by
      simp [List.set]
    have hdf' : ∀ t ∈ t0 :: t1 :: t2 :: c :: t4 :: t5 :: t6 :: t7 :: t8 :: rest2,
        NoDot t := by
      intro t ht
      rcases List.mem_cons.mp ht with h | ht; · subst h; exact hdf _ (by rw [hp]; simp)
      rcases List.mem_cons.mp ht with h | ht; · subst h; exact ht1
      rcases List.mem_cons.mp ht with h | ht; · subst h; exact ht2
      rcases List.mem_cons.mp ht with h | ht; · subst h; exact hcd
      exact hdf _ (by
        rw [hp]
        exact List.mem_cons_of_mem _ (List.mem_cons_of_mem _
          (List.mem_cons_of_mem _ (List.mem_cons_of_mem _ ht))))
    have hsplit : splitDot (joinDot
        (t0 :: t1 :: t2 :: c :: t4 :: t5 :: t6 :: t7 :: t8 :: rest2))
        = t0 :: t1 :: t2 :: c :: t4 :: t5 :: t6 :: t7 :: t8 :: rest2 :=
      splitDot_joinDot _ hdf' (by simp)
    unfold MyceliumSubject.fromStr
    rw [hset, hsplit, MyceliumSubject.fromParts_explicit V t0 t1 t2 c t4 t5 t6 t7 t8
      rest2 ht1 ht2 hcd ht4 ht5 ht6 ht7 hcl hcg, henv, hc]
    refine ⟨⟨env, ⟨t1, t2⟩, .Locator ⟨c, t4, t5⟩, ⟨t6, t7⟩, pt, rest2⟩, ?_⟩
    simp [hpt]

/-- C6 witness: geo gating at the concrete 9-token strings with codes
"US-AA" (rejected) and "US-CA" (accepted). -/
theorem claim6_witness :
    MyceliumSubject.fromStr sampleValidator
        (("prod.abc.xyz.US-AA.south.abc.plc-gateway.1.data").data)
      = some (.error "Invalid ISO 3166-2 code")
    ∧ ∃ S, MyceliumSubject.fromStr sampleValidator
        (joinDot ((splitDot
          (("prod.abc.xyz.US-AA.south.abc.plc-gateway.1.data").data)).set 3
          (("US-CA").data)))
      = some (.ok S) := by
  have h := claim6_geo_gating sampleValidator sampleValidator_good
    (("prod.abc.xyz.US-AA.south.abc.plc-gateway.1.data").data) (("US-CA").data)
    (by decide) (by decide) (by decide) ⟨.Production, by decide⟩ ⟨.Data, by decide⟩
    (by decide)
  exact ⟨h.1 (by decide), h.2⟩

/-- C7: every 6-token string fails with the minimum-length error, and every
7-token string with a valid environment token 0, sentinel token 3 and valid
payload-type token 6 parses to a subject with an empty payload identifier. -/
theorem claim7_arity (V : Validator) (s : RStr) :
    ((splitDot s).length = 6 →
      MyceliumSubject.fromStr V s
        = some (.error "String too short to represent a local or global MyceliumSubject"))
    ∧ ((splitDot s).length = 7 →
      (∃ env, Environment.fromStr ((splitDot s).getD 0 []) = .ok env) →
      ((splitDot s).getD 3 [] = ("local").data
        ∨ (splitDot s).getD 3 [] = ("global").data) →
      (∃ pt, PayloadType.fromStr ((splitDot s).getD 6 []) = .ok pt) →
      ∃ S, MyceliumSubject.fromStr V s = some (.ok S)
        ∧ S.payload_identifier = []) := by
  constructor
  · intro h6
    unfold MyceliumSubject.fromStr
    exact MyceliumSubject.fromParts_short V (splitDot s) (by omega)
  · intro h7 henv h3 hpt
    have hdf := noDot_splitDot s
    obtain ⟨t0, t1, t2, t3, t4, t5, t6, rest, hp⟩ := destruct7 (splitDot s) (by omega)
    have hrest : rest = [] := by
      rw [hp] at h7
      simp only [List.length_cons] at h7
      exact List.eq_nil_of_length_eq_zero (by omega)
    subst hrest
    have ht1 : NoDot t1 := hdf _ (by rw [hp]; simp)
    have ht2 : NoDot t2 := hdf _ (by rw [hp]; simp)
    have ht4 : NoDot t4 := hdf _ (by rw [hp]; simp)
    have ht5 : NoDot t5 := hdf _ (by rw [hp]; simp)
    obtain ⟨env, henv⟩ := henv
    obtain ⟨pt, hpt⟩ := hpt
    rw [hp] at h3 henv hpt
    simp only [List.getD, List.get?, Option.getD_some] at h3 henv hpt
    unfold MyceliumSubject.fromStr
    rw [hp]
    rcases h3 with h3 | h3
    · subst h3
      rw [MyceliumSubject.fromParts_local V t0 t1 t2 t4 t5 t6 [] ht1 ht2 ht4 ht5,
        henv, hpt]
      exact ⟨_, rfl, rfl⟩
    · subst h3
      rw [MyceliumSubject.fromParts_global V t0 t1 t2 t4 t5 t6 [] ht1 ht2 ht4 ht5,
        henv, hpt]
      exact ⟨_, rfl, rfl⟩

/-- C7 witness: the arity boundary at concrete 6- and 7-token strings. -/
theorem claim7_witness :
    MyceliumSubject.fromStr sampleValidator (("prod.abc.xyz.local.a.1").data)
      = some (.error "String too short to represent a local or global MyceliumSubject")
    ∧ ∃ S, MyceliumSubject.fromStr sampleValidator
        (("prod.abc.xyz.local.a.1.data").data) = some (.ok S)
      ∧ S.payload_identifier = [] :=
  ⟨(claim7_arity sampleValidator (("prod.abc.xyz.local.a.1").data)).1 (by decide),
    (claim7_arity sampleValidator (("prod.abc.xyz.local.a.1.data").data)).2
      (by decide) ⟨.Production, by decide⟩ (Or.inl (by decide)) ⟨.Data, by decide⟩⟩

/-- C8, counterexample: the seven-token string "prod...local...data" (with
empty tokens) parses successfully to a subject whose enterprise, op-group,
service-name and instance-id are all empty, refuting the claim that the
composite sub-fields of a parsed subject are always non-empty. -/
theorem claim8_counterexample :
    MyceliumSubject.fromStr sampleValidator (("prod...local...data").data)
      = some (.ok ⟨.Production, ⟨[], []⟩, .Local, ⟨[], []⟩, .Data, []⟩)
    ∧ (MyceliumSubject.mk .Production ⟨[], []⟩ .Local ⟨[], []⟩ .Data
        []).ownership_group.enterprise = [] := by
  decide

/-- C8 (amended): every subject produced by a successful parse has
enterprise, op-group, service-name and instance-id equal to single wire
tokens, hence free of the separator character — but they may be empty. -/
theorem claim8_subfields (V : Validator) (s : RStr) (S : MyceliumSubject)
    (h : MyceliumSubject.fromStr V s = some (.ok S)) :
    NoDot S.ownership_group.enterprise ∧ NoDot S.ownership_group.op_group
    ∧ NoDot S.service_identifier.service_name
    ∧ NoDot S.service_identifier.instance_id := by
  have hdf := noDot_splitDot s
  rw [← fromStr_ok_tokens V s S h] at hdf
  exact ⟨hdf _ (by simp [MyceliumSubject.tokens]),
    hdf _ (by simp [MyceliumSubject.tokens]),
    hdf _ (by simp [MyceliumSubject.tokens]),
    hdf _ (by simp [MyceliumSubject.tokens])⟩

/-- C8 witness: the amended sub-field property at a concrete parse. -/
theorem claim8_witness :
    NoDot (MyceliumSubject.mk .Production ⟨("abc").data, ("xyz").data⟩ .Local
        ⟨("a").data, ("1").data⟩ .Data []).ownership_group.enterprise
    ∧ NoDot (MyceliumSubject.mk .Production ⟨("abc").data, ("xyz").data⟩ .Local
        ⟨("a").data, ("1").data⟩ .Data []).ownership_group.op_group
    ∧ NoDot (MyceliumSubject.mk .Production ⟨("abc").data, ("xyz").data⟩ .Local
        ⟨("a").data, ("1").data⟩ .Data []).service_identifier.service_name
    ∧ NoDot (MyceliumSubject.mk .Production ⟨("abc").data, ("xyz").data⟩ .Local
        ⟨("a").data, ("1").data⟩ .Data []).service_identifier.instance_id :=
  claim8_subfields sampleValidator (("prod.abc.xyz.local.a.1.data").data) _
    (by decide)

/-- C9: the spec-modelled builder's `build` fails with a `MissingField`
error exactly when some slot was never set (a slot set to `some []` for the
payload identifier counts as set), and a successful `build` returns the
subject assembled from the staged fields. -/
theorem claim9_builder (V : Validator) (b : SubjectBuilder) :
    ((b.environment = none ∨ b.ownership_group = none ∨ b.geo_locator = none
      ∨ b.service_identifier = none ∨ b.payload_type = none
      ∨ b.payload_identifier = none)
      ↔ ∃ f, b.build V = .error (.MissingField f))
    ∧ ∀ m, b.build V = .ok m →
        b.environment = some m.environment
        ∧ b.ownership_group = some m.ownership_group
        ∧ b.geo_locator = some m.geo_locator
        ∧ b.service_identifier = some m.service_identifier
        ∧ b.payload_type = some m.payload_type
        ∧ b.payload_identifier = some m.payload_identifier := by
  rcases b with ⟨env?, og?, geo?, si?, pt?, pid?⟩
  constructor
  · constructor
    · intro h
      rcases env? with _ | env
      · exact ⟨"environment", rfl⟩
      rcases og? with _ | og
      · exact ⟨"ownership_group", rfl⟩
      rcases geo? with _ | geo
      · exact ⟨"geo_locator", rfl⟩
      rcases si? with _ | si
      · exact ⟨"service_identifier", rfl⟩
      rcases pt? with _ | pt
      · exact ⟨"payload_type", rfl⟩
      rcases pid? with _ | pid
      · exact ⟨"payload_identifier", rfl⟩
      simp at h
    · rintro ⟨f, hf⟩
      rcases env? with _ | env
      · exact Or.inl rfl
      rcases og? with _ | og
      · exact Or.inr (Or.inl rfl)
      rcases geo? with _ | geo
      · exact Or.inr (Or.inr (Or.inl rfl))
      rcases si? with _ | si
      · exact Or.inr (Or.inr (Or.inr (Or.inl rfl)))
      rcases pt? with _ | pt
      · exact Or.inr (Or.inr (Or.inr (Or.inr (Or.inl rfl))))
      rcases pid? with _ | pid
      · exact Or.inr (Or.inr (Or.inr (Or.inr (Or.inr rfl))))
      exfalso
      cases geo with
      | Local => simp [SubjectBuilder.build] at hf
      | Global => simp [SubjectBuilder.build] at hf
      | Locator l =>
        by_cases hv : V l.iso_3166_2 = true
        · simp [SubjectBuilder.build, hv] at hf
        · simp [SubjectBuilder.build, hv] at hf
  · intro m hm
    rcases env? with _ | env
    · simp [SubjectBuilder.build] at hm
    rcases og? with _ | og
    · simp [SubjectBuilder.build] at hm
    rcases geo? with _ | geo
    · simp [SubjectBuilder.build] at hm
    rcases si? with _ | si
    · simp [SubjectBuilder.build] at hm
    rcases pt? with _ | pt
    · simp [SubjectBuilder.build] at hm
    rcases pid? with _ | pid
    · simp [SubjectBuilder.build] at hm
    cases geo with
    | Local =>
      simp only [SubjectBuilder.build, Except.ok.injEq] at hm
      subst hm
      exact ⟨rfl, rfl, rfl, rfl, rfl, rfl⟩
    | Global =>
      simp only [SubjectBuilder.build, Except.ok.injEq] at hm
      subst hm
      exact ⟨rfl, rfl, rfl, rfl, rfl, rfl⟩
    | Locator l =>
      by_cases hv : V l.iso_3166_2 = true
      · simp only [SubjectBuilder.build, hv, reduceIte, Except.ok.injEq] at hm
        subst hm
        exact ⟨rfl, rfl, rfl, rfl, rfl, rfl⟩
      · simp [SubjectBuilder.build, hv] at hm

/-- C9 witness: `build` on a builder with no field set fails with a
`MissingField` error. -/
theorem claim9_witness :
    ∃ f, SubjectBuilder.new.build sampleValidator
      = .error (.MissingField f) :=
  ((claim9_builder sampleValidator SubjectBuilder.new).1).mp (Or.inl rfl)

/-- C10: the subject parser is total — for every input string it returns a
`Result` (the panic-modelling `none` is unreachable, every positional
access and the trailing slice being covered by the length guards). -/
theorem claim10_total (V : Validator) (s : RStr) :
    (MyceliumSubject.fromStr V s).isSome = true := by
  have hdf := noDot_splitDot s
  unfold MyceliumSubject.fromStr
  by_cases hlen : (splitDot s).length < 7
  · rw [MyceliumSubject.fromParts_short V _ hlen]
    rfl
  · push_neg at hlen
    obtain ⟨t0, t1, t2, t3, t4, t5, t6, rest, hp⟩ := destruct7 (splitDot s) hlen
    have ht1 : NoDot t1 := hdf _ (by rw [hp]; simp)
    have ht2 : NoDot t2 := hdf _ (by rw [hp]; simp)
    have ht3 : NoDot t3 := hdf _ (by rw [hp]; simp)
    have ht4 : NoDot t4 := hdf _ (by rw [hp]; simp)
    have ht5 : NoDot t5 := hdf _ (by rw [hp]; simp)
    have ht6 : NoDot t6 := hdf _ (by rw [hp]; simp)
    rw [hp]
    by_cases h3l : t3 = ("local").data
    · subst h3l
      rw [MyceliumSubject.fromParts_local V t0 t1 t2 t4 t5 t6 rest ht1 ht2 ht4 ht5]
      cases Environment.fromStr t0 <;> cases PayloadType.fromStr t6 <;> simp
    · by_cases h3g : t3 = ("global").data
      · subst h3g
        rw [MyceliumSubject.fromParts_global V t0 t1 t2 t4 t5 t6 rest ht1 ht2 ht4 ht5]
        cases Environment.fromStr t0 <;> cases PayloadType.fromStr t6 <;> simp
      · by_cases hlen9 : (t0 :: t1 :: t2 :: t3 :: t4 :: t5 :: t6 :: rest).length < 9
        · rw [MyceliumSubject.fromParts_explicit_short V t0 t1 t2 t3 t4 t5 t6 rest
            ht1 ht2 h3l h3g hlen9]
          cases Environment.fromStr t0 <;> simp
        · push_neg at hlen9
          obtain ⟨t7, t8, rest2, hr⟩ := destruct2 rest
            (by simp only [List.length_cons] at hlen9; omega)
          subst hr
          have ht7 : NoDot t7 := hdf _ (by rw [hp]; simp)
          rw [MyceliumSubject.fromParts_explicit V t0 t1 t2 t3 t4 t5 t6 t7 t8 rest2
            ht1 ht2 ht3 ht4 ht5 ht6 ht7 h3l h3g]
          cases Environment.fromStr t0 <;> cases hv : V t3 <;>
            cases PayloadType.fromStr t8 <;> simp [hv]

end Mycelium
